import Mathlib

/-!
Verification of the `Breakout-Regression.ipynb` notebook.

Finite numeric values (numpy floats) are embedded as rationals, and
the non-finite values numpy produces instead of raising on a zero
divisor are embedded as dedicated constructors of `NpFloat`; fallible
operations (the predict method of a model, numpy element-wise
subtraction) return `Option`.
-/

/-- A numeric vector (one-dimensional numpy array). -/
abbrev Vec := List ℚ

/-- A numeric matrix (two-dimensional numpy array), as a list of rows. -/
abbrev Mat := List Vec

/-- A regression model: `predict` maps a feature matrix to a prediction
vector, and may fail. -/
structure Model where
  predict : Mat → Option Vec

/-- numpy element-wise subtraction `a - b` of one-dimensional arrays,
including broadcasting of a length-one operand; it fails on
incompatible lengths. -/
def npSub (a b : Vec) : Option Vec :=
  if a.length = b.length then some (List.zipWith (fun x t => x - t) a b)
  else
    match a, b with
    | [x], b => some (b.map (fun t => x - t))
    | a, [t] => some (a.map (fun x => x - t))
    | _, _ => none

/-- The result of a numpy scalar operation: a finite value embedded as
a rational, or one of the non-finite values (nan, signed infinity)
that numpy produces instead of raising. -/
inductive NpFloat where
  | fin (q : ℚ)
  | nan
  | posInf
  | negInf
deriving DecidableEq

/-- numpy scalar division `a / b`. The dividend `np.sum(...)` is a
numpy scalar, so `/` is numpy true division: for a nonzero divisor it
is exact division; on a zero divisor numpy emits a RuntimeWarning and
returns nan for `0 / 0` or a signed infinity otherwise — it never
raises. -/
def npDiv (a b : ℚ) : NpFloat :=
  if b = 0 then
    if a = 0 then NpFloat.nan
    else if a > 0 then NpFloat.posInf
    else NpFloat.negInf
  else NpFloat.fin (a / b)

/-- `def outlier_score(model, X, y, thresh=0.05)` from the notebook:
`y_pred = model.predict(X)`, `diff = abs(y - y_pred)`,
`return np.sum(diff <= thresh) / len(y)`.
`np.sum` of the boolean array `diff <= thresh` counts its `True`
entries; the final division is numpy scalar division. -/
def outlier_score (model : Model) (X : Mat) (y : Vec) (thresh : ℚ) :
    Option NpFloat :=
  match model.predict X with
  | none => none
  | some y_pred =>
    match npSub y y_pred with
    | none => none
    | some d =>
      let diff := d.map (fun x => |x|)
      some (npDiv ((diff.countP (fun x => decide (x ≤ thresh)) : ℕ) : ℚ)
        (y.length : ℚ))

/-- A call of `outlier_score` that omits `thresh` uses the default
value `0.05` from the signature. -/
def outlier_score_default (model : Model) (X : Mat) (y : Vec) :
    Option NpFloat :=
  outlier_score model X y 0.05

/-- One record of the SDSS spectroscopic galaxy catalog, restricted to
the fields the notebook reads: the five `modelMag` bands and the
redshift `z`. -/
structure GalaxyRecord where
  modelMag_u : ℚ
  modelMag_g : ℚ
  modelMag_r : ℚ
  modelMag_i : ℚ
  modelMag_z : ℚ
  z : ℚ

/-- Field access `data[modelMag_f]` for a whole dataset: one column,
one entry per record. -/
def column (f : GalaxyRecord → ℚ) (data : List GalaxyRecord) : Vec :=
  data.map f

/-- `np.vstack(rows).T`: stacks the given equal-length rows and
transposes, so entry `(i, j)` of the result is entry `i` of row `j`. -/
def vstackT (rows : Mat) : Mat :=
  let n := match rows with | [] => 0 | r :: _ => r.length
  (List.range n).map (fun i => rows.map (fun r => r.getD i 0))

/-- `mags = np.vstack([data[modelMag_f] for f in ugriz]).T`. -/
def mags (data : List GalaxyRecord) : Mat :=
  vstackT
    [column (fun r => r.modelMag_u) data,
     column (fun r => r.modelMag_g) data,
     column (fun r => r.modelMag_r) data,
     column (fun r => r.modelMag_i) data,
     column (fun r => r.modelMag_z) data]

/-- `z = data[z]`, the redshift target vector. -/
def zvec (data : List GalaxyRecord) : Vec :=
  column (fun r => r.z) data

/-- numpy column slice `m[:, 1:]`: drops the first column. -/
def sliceTail (m : Mat) : Mat :=
  m.map (fun row => row.drop 1)

/-- numpy column slice `m[:, :-1]`: drops the last column. -/
def sliceInit (m : Mat) : Mat :=
  m.map (fun row => row.dropLast)

/-- Element-wise matrix subtraction of same-shape matrices. -/
def matSub (a b : Mat) : Mat :=
  List.zipWith (List.zipWith (fun x t => x - t)) a b

/-- `colors = mags[:, 1:] - mags[:, :-1]`. -/
def colors (data : List GalaxyRecord) : Mat :=
  matSub (sliceTail (mags data)) (sliceInit (mags data))

/-- The count of indices `i < y.length` whose absolute residual
`|y[i] - p[i]|` is at most `t`: the spec reading of the score
numerator. -/
def residCount (y p : Vec) (t : ℚ) : ℕ :=
  (List.range y.length).countP
    (fun i => decide (|y.getD i 0 - p.getD i 0| ≤ t))

/-- A model returning fixed predictions, for concrete evaluation. -/
def constModel (v : Vec) : Model :=
  ⟨fun _ => some v⟩

/-- A model whose `predict` always fails, for concrete evaluation. -/
def failModel : Model :=
  ⟨fun _ => none⟩

theorem outlier_score_some (m : Model) (X : Mat) (y p : Vec) (t : ℚ)
    (hp : m.predict X = some p) (hlen : y.length = p.length)
    (hpos : 0 < y.length) :
    outlier_score m X y t =
      some (NpFloat.fin
        ((((List.zipWith (fun a b => a - b) y p).map
          (fun x => |x|)).countP (fun x => decide (x ≤ t)) : ℚ) /
        (y.length : ℚ))) := by
  have h0 : (y.length : ℚ) ≠ 0 := by
    exact_mod_cast Nat.pos_iff_ne_zero.mp hpos
  simp only [outlier_score, hp, npSub, if_pos hlen, npDiv, if_neg h0]

theorem countP_abs_residuals (y : Vec) :
    ∀ (p : Vec), y.length = p.length → ∀ t : ℚ,
      ((List.zipWith (fun a b => a - b) y p).map
          (fun x => |x|)).countP (fun x => decide (x ≤ t)) =
        residCount y p t := by
  induction y with
  | nil => intro p h t; simp [residCount]
  | cons a ys ih =>
    intro p h t
    match p with
    | [] => simp at h
    | b :: ps =>
      have h2 : ys.length = ps.length := by
        simpa using h
      simp only [List.zipWith_cons_cons, List.map_cons, List.countP_cons]
      rw [ih ps h2 t]
      simp only [residCount, List.length_cons, List.range_succ_eq_map,
        List.countP_cons, List.countP_map, Function.comp_def,
        Nat.succ_eq_add_one, List.getD_cons_zero, List.getD_cons_succ]

theorem outlier_score_residCount (m : Model) (X : Mat) (y p : Vec)
    (t : ℚ) (hp : m.predict X = some p) (hlen : y.length = p.length)
    (hpos : 0 < y.length) :
    outlier_score m X y t =
      some (NpFloat.fin ((residCount y p t : ℚ) / (y.length : ℚ))) := by
  rw [outlier_score_some m X y p t hp hlen hpos,
    countP_abs_residuals y p hlen t]

theorem point05_eq : (0.05 : ℚ) = 1 / 20 := by
  norm_num [OfScientific.ofScientific, Rat.ofScientific_true_def]

/-- C1: for every model, feature matrix `X`, true-value vector `y` and
threshold, if `y` and the prediction vector have equal positive length
`n`, then `outlier_score` returns the count of indices whose absolute
difference is at most the threshold, divided by `n`. -/
theorem C1_outlier_score_is_fraction (m : Model) (X : Mat) (y p : Vec)
    (t : ℚ) (hp : m.predict X = some p) (hlen : y.length = p.length)
    (hpos : 0 < y.length) :
    outlier_score m X y t =
      some (NpFloat.fin ((residCount y p t : ℚ) / (y.length : ℚ))) :=
  outlier_score_residCount m X y p t hp hlen hpos

theorem C1_outlier_score_is_fraction_witness :
    outlier_score (constModel [0, 1]) [] [(1:ℚ)/25, 2] (1/20) =
      some (NpFloat.fin ((residCount [(1:ℚ)/25, 2] [0, 1] (1/20) : ℚ) /
        (([(1:ℚ)/25, 2] : Vec).length : ℚ))) :=
  C1_outlier_score_is_fraction (constModel [0, 1]) [] [(1:ℚ)/25, 2]
    [0, 1] (1/20) rfl rfl (by decide)

/-- C2: for every model, feature matrix, non-empty true-value vector of
the same length as the prediction vector, and threshold, the returned
value lies in the closed interval from 0 to 1. -/
theorem C2_outlier_score_unit_interval (m : Model) (X : Mat) (y p : Vec)
    (t : ℚ) (hp : m.predict X = some p) (hlen : y.length = p.length)
    (hpos : 0 < y.length) :
    ∃ q, outlier_score m X y t = some (NpFloat.fin q) ∧
      0 ≤ q ∧ q ≤ 1 := by
  refine ⟨_, outlier_score_some m X y p t hp hlen hpos, ?_, ?_⟩
  · positivity
  · rw [div_le_one (by exact_mod_cast hpos)]
    have hle : ((List.zipWith (fun a b => a - b) y p).map
        (fun x => |x|)).countP (fun x => decide (x ≤ t)) ≤ y.length := by
      calc ((List.zipWith (fun a b => a - b) y p).map
            (fun x => |x|)).countP (fun x => decide (x ≤ t))
          ≤ ((List.zipWith (fun a b => a - b) y p).map
            (fun x => |x|)).length := List.countP_le_length _
        _ = (List.zipWith (fun a b => a - b) y p).length :=
            List.length_map _ _
        _ = min y.length p.length := List.length_zipWith _ _ _
        _ = y.length := by omega
    exact_mod_cast hle

theorem C2_outlier_score_unit_interval_witness :
    ∃ q, outlier_score (constModel [0, 1]) [] [(1:ℚ)/25, 2] (1/20) =
      some (NpFloat.fin q) ∧ 0 ≤ q ∧ q ≤ 1 :=
  C2_outlier_score_unit_interval (constModel [0, 1]) [] [(1:ℚ)/25, 2]
    [0, 1] (1/20) rfl rfl (by decide)

/-- C3: `outlier_score` computes the fraction of predictions within a
fixed absolute tolerance of the true value; called without an explicit
threshold the tolerance is 0.05, and a prediction whose absolute
difference equals the threshold exactly is counted as within
tolerance. -/
theorem C3_outlier_score_default_boundary :
    (∀ (m : Model) (X : Mat) (y p : Vec), m.predict X = some p →
        y.length = p.length → 0 < y.length →
        outlier_score_default m X y =
          some (NpFloat.fin
            ((residCount y p 0.05 : ℚ) / (y.length : ℚ)))) ∧
      outlier_score_default (constModel [0]) [] [(1:ℚ)/20] =
        some (NpFloat.fin 1) := by
  constructor
  · intro m X y p hp hlen hpos
    rw [outlier_score_default,
      outlier_score_residCount m X y p 0.05 hp hlen hpos]
  · rw [outlier_score_default, point05_eq]
    simp only [outlier_score, constModel, npSub, npDiv]
    norm_num [List.countP_cons, abs_le]

theorem C3_outlier_score_default_boundary_witness :
    outlier_score_default (constModel [0, 1]) [] [(1:ℚ)/25, 2] =
      some (NpFloat.fin ((residCount [(1:ℚ)/25, 2] [0, 1] 0.05 : ℚ) /
        (([(1:ℚ)/25, 2] : Vec).length : ℚ))) :=
  C3_outlier_score_default_boundary.1 (constModel [0, 1]) []
    [(1:ℚ)/25, 2] [0, 1] rfl rfl (by decide)

/-- C6, counterexample: with an empty true-value vector and a
successful empty prediction, the final division divides by
`len(y) = 0`, yet the call returns a value (nan) rather than raising:
a failure of the final division is not an error path of the
program. -/
theorem C6_division_failure_not_raised :
    (constModel []).predict [] = some ([] : Vec) ∧
      ([] : Vec).length = 0 ∧
      outlier_score (constModel []) [] [] (1/20) = some NpFloat.nan := by
  refine ⟨rfl, rfl, ?_⟩
  simp [outlier_score, constModel, npSub, npDiv]

/-- C6, amended: `outlier_score` performs no error handling of its
own: it fails exactly when `model.predict` fails or when the
element-wise subtraction fails on incompatible vector lengths, and any
such error surfaces directly from the underlying library operation;
the final division never fails — on a zero divisor numpy warns and
returns a non-finite value. -/
theorem C6_outlier_score_failure_propagation (m : Model) (X : Mat)
    (y : Vec) (t : ℚ) :
    outlier_score m X y t = none ↔
      m.predict X = none ∨
        ∃ p, m.predict X = some p ∧ npSub y p = none := by
  cases hp : m.predict X with
  | none => simp [outlier_score, hp]
  | some p =>
    cases hs : npSub y p with
    | none => simp [outlier_score, hp, hs]
    | some d => simp [outlier_score, hp, hs]

/-- C7, counterexample: on an empty true-value vector with a
broadcastable prediction vector, `outlier_score` does return a value —
nan — so the claim that the division failure keeps it from returning
is false. -/
theorem C7_empty_y_returns_nan :
    outlier_score (constModel [0]) [] [] (1/20) = some NpFloat.nan := by
  simp [outlier_score, constModel, npSub, npDiv]

/-- C7, amended: for an empty true-value vector and a prediction
vector that broadcasts against it (length at most one), the final
division divides by `len(y) = 0` and numpy emits a warning and
returns nan rather than raising, so `outlier_score` returns nan; it
returns a finite fraction only when `y` is non-empty. -/
theorem C7_outlier_score_empty_nan (m : Model) (X : Mat) (t : ℚ)
    (p : Vec) (hp : m.predict X = some p) (hlen : p.length ≤ 1) :
    outlier_score m X [] t = some NpFloat.nan := by
  match p with
  | [] => simp [outlier_score, hp, npSub, npDiv]
  | [x] => simp [outlier_score, hp, npSub, npDiv]
  | x :: x2 :: rest => simp at hlen

theorem C7_outlier_score_empty_nan_witness :
    outlier_score (constModel []) [] [] (1/10) = some NpFloat.nan :=
  C7_outlier_score_empty_nan (constModel []) [] (1/10) [] rfl
    (by norm_num)

/-- C8: `outlier_score` is monotone non-decreasing in the threshold:
for equal-length non-empty vectors and thresholds `t1 ≤ t2`, the score
at `t1` is at most the score at `t2`. -/
theorem C8_outlier_score_monotone_thresh (m : Model) (X : Mat)
    (y p : Vec) (t1 t2 : ℚ) (hp : m.predict X = some p)
    (hlen : y.length = p.length) (hpos : 0 < y.length)
    (ht : t1 ≤ t2) :
    ∃ q1 q2, outlier_score m X y t1 = some (NpFloat.fin q1) ∧
      outlier_score m X y t2 = some (NpFloat.fin q2) ∧ q1 ≤ q2 := by
  refine ⟨_, _, outlier_score_some m X y p t1 hp hlen hpos,
    outlier_score_some m X y p t2 hp hlen hpos, ?_⟩
  have hc : ((List.zipWith (fun a b => a - b) y p).map
        (fun x => |x|)).countP (fun x => decide (x ≤ t1)) ≤
      ((List.zipWith (fun a b => a - b) y p).map
        (fun x => |x|)).countP (fun x => decide (x ≤ t2)) := by
    refine List.countP_mono_left (fun x _ hx => ?_)
    simp only [decide_eq_true_eq] at hx ⊢
    exact hx.trans ht
  exact div_le_div_of_nonneg_right (by exact_mod_cast hc) (by positivity)

theorem C8_outlier_score_monotone_thresh_witness :
    ∃ q1 q2, outlier_score (constModel [0, 1]) [] [(1:ℚ)/25, 2]
        (1/100) = some (NpFloat.fin q1) ∧
      outlier_score (constModel [0, 1]) [] [(1:ℚ)/25, 2] (1/20) =
        some (NpFloat.fin q2) ∧ q1 ≤ q2 :=
  C8_outlier_score_monotone_thresh (constModel [0, 1]) []
    [(1:ℚ)/25, 2] [0, 1] (1/100) (1/20) rfl rfl (by decide)
    (by norm_num)

/-- C9: the score depends on the residuals only through their absolute
values: two models whose predictions differ from `y` by element-wise
opposite residuals receive equal scores at every threshold. -/
theorem C9_outlier_score_abs_invariance (m1 m2 : Model) (X : Mat)
    (y p1 p2 : Vec) (t : ℚ) (h1 : m1.predict X = some p1)
    (h2 : m2.predict X = some p2) (hl1 : y.length = p1.length)
    (hl2 : y.length = p2.length)
    (hopp : List.zipWith (fun a b => a - b) y p1 =
      (List.zipWith (fun a b => a - b) y p2).map (fun x => -x)) :
    outlier_score m1 X y t = outlier_score m2 X y t := by
  have habs : (List.zipWith (fun a b => a - b) y p1).map
      (fun x => |x|) =
      (List.zipWith (fun a b => a - b) y p2).map (fun x => |x|) := by
    rw [hopp, List.map_map]
    simp [Function.comp_def, abs_neg]
  simp only [outlier_score, h1, h2, npSub, if_pos hl1, if_pos hl2,
    npDiv, habs]

theorem C9_outlier_score_abs_invariance_witness :
    outlier_score (constModel [1]) [] [(0:ℚ)] (1/20) =
      outlier_score (constModel [-1]) [] [(0:ℚ)] (1/20) :=
  C9_outlier_score_abs_invariance (constModel [1]) (constModel [-1])
    [] [(0:ℚ)] [1] [-1] (1/20) rfl rfl rfl rfl (by norm_num)

theorem mags_row (data : List GalaxyRecord) (i : ℕ)
    (h : i < data.length) :
    (mags data).getD i [] =
      [(data.get ⟨i, h⟩).modelMag_u, (data.get ⟨i, h⟩).modelMag_g,
       (data.get ⟨i, h⟩).modelMag_r, (data.get ⟨i, h⟩).modelMag_i,
       (data.get ⟨i, h⟩).modelMag_z] := by
  simp only [mags, vstackT, column, List.length_map, List.map_cons,
    List.map_nil, List.getD_eq_getElem?_getD, List.getElem?_map,
    List.getElem?_range h, List.getElem?_eq_getElem h,
    List.get_eq_getElem, Option.map_some', Option.getD_some]

theorem mags_length (data : List GalaxyRecord) :
    (mags data).length = data.length := by
  simp [mags, vstackT, column]

theorem colors_row (data : List GalaxyRecord) (i : ℕ)
    (h : i < data.length) :
    (colors data).getD i [] =
      List.zipWith (fun x t => x - t)
        (((mags data).getD i []).drop 1)
        (((mags data).getD i []).dropLast) := by
  have hm : i < (mags data).length := by rw [mags_length]; exact h
  simp [colors, matSub, sliceTail, sliceInit,
    List.getD_eq_getElem?_getD, List.getElem?_zipWith',
    List.getElem?_map, List.getElem?_eq_getElem hm]

theorem colors_length (data : List GalaxyRecord) :
    (colors data).length = data.length := by
  simp [colors, matSub, sliceTail, sliceInit, mags_length]

theorem getD_eq_get_of_lt (l : Mat) (i : ℕ) (h : i < l.length) :
    l.getD i [] = l.get ⟨i, h⟩ := by
  simp [List.getD_eq_getElem?_getD, List.getElem?_eq_getElem h,
    List.get_eq_getElem]

/-- C5: row `i` of `mags` is the five-element vector of the modelMag
values of record `i` in the fixed band order u, g, r, i, z; for a
dataset of `N` records, `mags` has `N` rows of 5 entries each and the
target vector `z` has length `N`. -/
theorem C5_mags_rows_ugriz (data : List GalaxyRecord) :
    (mags data).length = data.length ∧
    (zvec data).length = data.length ∧
    (∀ row ∈ mags data, row.length = 5) ∧
    ∀ i (h : i < data.length),
      (mags data).getD i [] =
        [(data.get ⟨i, h⟩).modelMag_u, (data.get ⟨i, h⟩).modelMag_g,
         (data.get ⟨i, h⟩).modelMag_r, (data.get ⟨i, h⟩).modelMag_i,
         (data.get ⟨i, h⟩).modelMag_z] := by
  refine ⟨mags_length data, by simp [zvec, column], ?_, ?_⟩
  · intro row hrow
    rcases List.mem_iff_get.mp hrow with ⟨⟨i, hi⟩, hget⟩
    have hd : i < data.length := by
      have := hi; rwa [mags_length] at this
    rw [← hget, ← getD_eq_get_of_lt _ _ hi, mags_row data i hd]
    rfl
  · intro i h
    exact mags_row data i h

theorem C5_mags_rows_ugriz_witness :
    (mags [⟨1, 2, 3, 4, 5, 10⟩]).getD 0 [] = [(1:ℚ), 2, 3, 4, 5] := by
  have h := (C5_mags_rows_ugriz [⟨1, 2, 3, 4, 5, 10⟩]).2.2.2 0
    (by norm_num)
  simpa using h

/-- C4: the derived color matrix is the pairwise difference of adjacent
magnitude columns: entry `(i, j)` of `colors` is entry `(i, j+1)` minus
entry `(i, j)` of `mags`, so `colors` has 4 columns, one fewer than the
five-band magnitude matrix. -/
theorem C4_colors_adjacent_differences (data : List GalaxyRecord) :
    (colors data).length = data.length ∧
    (∀ row ∈ colors data, row.length = 4) ∧
    (∀ row ∈ mags data, row.length = 5) ∧
    ∀ i j, i < data.length → j < 4 →
      ((colors data).getD i []).getD j 0 =
        ((mags data).getD i []).getD (j + 1) 0 -
          ((mags data).getD i []).getD j 0 := by
  refine ⟨colors_length data, ?_, ?_, ?_⟩
  · intro row hrow
    rcases List.mem_iff_get.mp hrow with ⟨⟨i, hi⟩, hget⟩
    have hd : i < data.length := by
      have := hi; rwa [colors_length] at this
    rw [← hget, ← getD_eq_get_of_lt _ _ hi, colors_row data i hd,
      mags_row data i hd]
    rfl
  · intro row hrow
    rcases List.mem_iff_get.mp hrow with ⟨⟨i, hi⟩, hget⟩
    have hd : i < data.length := by
      have := hi; rwa [mags_length] at this
    rw [← hget, ← getD_eq_get_of_lt _ _ hi, mags_row data i hd]
    rfl
  · intro i j hi hj
    rw [colors_row data i hi, mags_row data i hi]
    interval_cases j <;> rfl

theorem C4_colors_adjacent_differences_witness :
    ((colors [⟨1, 2, 3, 4, 5, 10⟩]).getD 0 []).getD 1 0 =
      ((mags [⟨1, 2, 3, 4, 5, 10⟩]).getD 0 []).getD 2 0 -
        ((mags [⟨1, 2, 3, 4, 5, 10⟩]).getD 0 []).getD 1 0 :=
  (C4_colors_adjacent_differences [⟨1, 2, 3, 4, 5, 10⟩]).2.2.2 0 1
    (by norm_num) (by norm_num)
